import Mathlib

/-!
Verification development for the browser-laptop user-model / ads engine.

The two source files embedded here are:
  * `src/app/common/state/userModelState.js` — the behavioral-state record and
    its accessors (a persistent-map style state threaded through every call);
  * `src/unnamed/part_000` — the engine on top of it (reporting events,
    ad serving, timing model, upload pipeline).

JavaScript values are modelled as follows: the Immutable.Map `state` becomes a
Lean structure `AppState` (settings sub-record plus a `userModel` sub-record
whose fields are `Option`s, `none` standing for an absent key / `undefined`);
numbers are `Int` (or `Rat` where the source divides); JS truthiness of the
modelled values is made explicit at each use site; code that throws returns
`Except JsError`.  External collaborator modules (classifier, elph model,
url utilities, uuid generation, wall clock) are passed in as explicit
parameters, mirroring the narrow interfaces the source consumes.
-/

/-- A JS exception, as far as the embedded code distinguishes them. -/
inductive JsError where
  | typeError
  | assertionFailed
deriving DecidableEq

/-- Values stored through the generic `setUserModelValue` accessor. -/
inductive JsValue where
  | bool (b : Bool)
  | str (s : String)
  | strList (l : List String)
deriving DecidableEq

/-- A survey record in `userSurveyQueue`. -/
structure Survey where
  id : String
  status : String
  status_at : Option String := none
  title : String := ""
  description : String := ""
  url : String := ""
deriving DecidableEq

/-- A reporting-event record: the union of the fields the modelled event kinds
populate (`none` = key absent from the JS object). -/
structure AdEvent where
  type : String
  stamp : String
  uuid : Option String := none
  notificationType : Option String := none
  notificationClassification : Option (List String) := none
  notificationCatalog : Option String := none
  notificationUrl : Option String := none
  notificationId : Option String := none
  tabId : Option String := none
  place : Option String := none
deriving DecidableEq

/-- The `settings` sub-record (read through `getSetting`). -/
structure Settings where
  adsEnabled : Bool := false
  adsPerHour : Int := 0
  adsPerDay : Int := 0
  adsPlace : Option String := none
deriving DecidableEq

/-- The `userModel` sub-record.  Every field is an `Option`: `none` models a
key that is absent from the Immutable.Map (JS `undefined`).  Keys written
through the generic `setUserModelValue` accessor are kept in the separate
association list `userModelValues` (the calls in the source use keys disjoint
from the structured fields). -/
structure UserModel where
  pageScoreHistory : Option (List (List Rat)) := none
  adsShownHistory : Option (List Int) := none
  adsUUIDSeen : Option (List (String × Int)) := none
  reportingEventQueue : Option (List AdEvent) := none
  userSurveyQueue : Option (List Survey) := none
  timingModel : Option (List Int) := none
  adUUID : Option String := none
  searchActivity : Option Bool := none
  searchUrl : Option String := none
  score : Option Rat := none
  lastSearchTime : Option Int := none
  shopActivity : Option Bool := none
  shopUrl : Option String := none
  lastShopTime : Option Int := none
  purchaseTime : Option Int := none
  purchaseUrl : Option String := none
  purchaseActive : Option Bool := none
  locale : Option String := none
  currentSSID : Option String := none
  places : Option (List (String × String)) := none
  lastUserActivity : Option Int := none
  lastUserIdleStopTime : Option Int := none
  lastAdTime : Option Int := none
  adServed : Option String := none
  adClass : Option String := none
  userModelValues : List (String × JsValue) := []
deriving DecidableEq

/-- The whole application state as the user-model code sees it. -/
structure AppState where
  settings : Settings := {}
  userModel : UserModel := {}
deriving DecidableEq

/-- Association-list update, modelling `Immutable.Map.setIn` on a one-level key. -/
def assocSet {β : Type} : List (String × β) → String → β → List (String × β)
  | [], k, v => [(k, v)]
  | (k1, v1) :: rest, k, v =>
      if k1 = k then (k, v) :: rest else (k1, v1) :: assocSet rest k v

/-- Association-list lookup, modelling `Immutable.Map.getIn` on a one-level key. -/
def assocGet {β : Type} : List (String × β) → String → Option β
  | [], _ => none
  | (k1, v1) :: rest, k => if k1 = k then some v1 else assocGet rest k

/-- JS truthiness of a number-or-undefined value (`0` and `undefined` are falsy). -/
def jsTruthyNum (v : Option Int) : Bool :=
  match v with
  | some n => decide (n ≠ 0)
  | none => false

/-- JS truthiness of a boolean-or-undefined value. -/
def jsTruthyBool (v : Option Bool) : Bool :=
  match v with
  | some b => b
  | none => false

/-- Update the `userModel` sub-record (the `state.setIn(['userModel', ...])` pattern). -/
def modUM (state : AppState) (f : UserModel → UserModel) : AppState :=
  { state with userModel := f state.userModel }

/-- `userModelState.getAdEnabledValue`: `state.getIn(['settings', settings.ADS_ENABLED])`. -/
def getAdEnabledValue (state : AppState) : Bool :=
  state.settings.adsEnabled

/-- `maxRowsInPageScoreHistory` -/
def maxRowsInPageScoreHistory : Nat := 5

/-- `maxRowsInAdsShownHistory` -/
def maxRowsInAdsShownHistory : Nat := 99

/-- The ring-buffer core of `appendToRingBufferUnderKey`: push, then, if the
size exceeds `maxRows`, slice `size - maxRows` elements off the front. -/
def ringBufPush {α : Type} (previous : List α) (item : α) (maxRows : Nat) : List α :=
  let ringbuf := previous ++ [item]
  let n := ringbuf.length
  if n > maxRows then ringbuf.drop (n - maxRows) else ringbuf

/-- `appendToRingBufferUnderKey` instantiated at `['userModel', 'pageScoreHistory']`
(the body of `appendPageScoreToHistoryAndRotate`).  A non-list / absent
previous value is replaced by the empty list, as in the source. -/
def appendPageScoreToHistoryAndRotate (state : AppState) (pageScore : List Rat) : AppState :=
  if !getAdEnabledValue state then state
  else
    modUM state fun um =>
      { um with
        pageScoreHistory := some (ringBufPush (um.pageScoreHistory.getD []) pageScore maxRowsInPageScoreHistory) }

/-- `appendToRingBufferUnderKey` instantiated at `['userModel', 'adsShownHistory']`
(the body of `appendAdShownToAdHistory`); `now` stands for `unixTimeNowSeconds()`. -/
def appendAdShownToAdHistory (state : AppState) (now : Int) : AppState :=
  if !getAdEnabledValue state then state
  else
    modUM state fun um =>
      { um with
        adsShownHistory := some (ringBufPush (um.adsShownHistory.getD []) now maxRowsInAdsShownHistory) }

/-- `historyRespectsRollingTimeConstraint`: count the timestamps whose age is
strictly below `secondsWindow`, refuse when that count strictly exceeds
`allowableAdCount`.  `now` stands for `unixTimeNowSeconds()`. -/
def historyRespectsRollingTimeConstraint (now : Int) (history : List Int)
    (secondsWindow : Int) (allowableAdCount : Int) : Bool :=
  let recentCount :=
    history.foldl
      (fun count timeOfAd => if now - timeOfAd < secondsWindow then count + 1 else count)
      (0 : Int)
  if recentCount > allowableAdCount then false else true

/-- `userModelState.allowedToShowAdBasedOnHistory`. -/
def allowedToShowAdBasedOnHistory (state : AppState) (now : Int) : Bool :=
  let history := state.userModel.adsShownHistory.getD []
  let hourWindow : Int := 60 * 60
  let dayWindow : Int := 24 * hourWindow
  let hourAllowed := state.settings.adsPerHour
  let dayAllowed := state.settings.adsPerDay
  let respectsHourLimit := historyRespectsRollingTimeConstraint now history hourWindow hourAllowed
  let respectsDayLimit := historyRespectsRollingTimeConstraint now history dayWindow dayAllowed
  if !respectsHourLimit || !respectsDayLimit then false else true

/-- `userModelState.setUserModelValue` (an empty key is falsy, hence a no-op). -/
def setUserModelValue (state : AppState) (key : String) (value : JsValue) : AppState :=
  if key = ("") || !getAdEnabledValue state then state
  else modUM state fun um =>
    { um with userModelValues := assocSet um.userModelValues key value }

/-- `userModelState.getUserModelValue`. -/
def getUserModelValue (state : AppState) (key : String) : Option JsValue :=
  assocGet state.userModel.userModelValues key

/-- `userModelState.getAdUUIDSeen` (absent map defaults to the empty map). -/
def getAdUUIDSeen (state : AppState) : List (String × Int) :=
  state.userModel.adsUUIDSeen.getD []

/-- `userModelState.recordAdUUIDSeen` (default `value = 1`). -/
def recordAdUUIDSeen (state : AppState) (uuid : String) (value : Int) : AppState :=
  if !getAdEnabledValue state then state
  else
    let seen := getAdUUIDSeen state
    modUM state fun um => { um with adsUUIDSeen := some (assocSet seen uuid value) }

/-- `userModelState.getPageScoreHistory` (the mutable/immutable flag has no
Lean counterpart; an absent history defaults to the empty list). -/
def getPageScoreHistory (state : AppState) : List (List Rat) :=
  state.userModel.pageScoreHistory.getD []

/-- `userModelState.removeAllHistory`: unconditionally resets the whole
`userModel` sub-record to an empty map (the source is explicitly commented
DO NOT check settings.ADS_ENABLED). -/
def removeAllHistory (state : AppState) : AppState :=
  { state with userModel := {} }

/-- `userModelState.flagSearchState`; `isURL` stands for `urlUtil.isURL`,
`now` for `new Date().getTime()`. -/
def flagSearchState (isURL : String → Bool) (state : AppState) (url : String)
    (score : Rat) (now : Int) : AppState :=
  if url = ("") || !isURL url || !getAdEnabledValue state then state
  else modUM state fun um =>
    { um with searchActivity := some true, searchUrl := some url,
              score := some score, lastSearchTime := some now }

/-- `userModelState.unFlagSearchState`. -/
def unFlagSearchState (isURL : String → Bool) (state : AppState) (url : String)
    (now : Int) : AppState :=
  if url = ("") || !isURL url || !getAdEnabledValue state then state
  else if state.userModel.searchUrl = some url then state
  else modUM state fun um =>
    { um with searchActivity := some false, lastSearchTime := some now }

/-- `userModelState.flagShoppingState`. -/
def flagShoppingState (state : AppState) (url : String) (now : Int) : AppState :=
  if !getAdEnabledValue state then state
  else modUM state fun um =>
    { um with shopActivity := some true, shopUrl := some url, lastShopTime := some now }

/-- `userModelState.getSearchState` (called with an actual state argument). -/
def getSearchState (state : AppState) : Option Bool :=
  state.userModel.searchActivity

/-- `userModelState.getShoppingState` (called with an actual state argument). -/
def getShoppingState (state : AppState) : Option Bool :=
  state.userModel.shopActivity

/-- `userModelState.unFlagShoppingState`. -/
def unFlagShoppingState (state : AppState) : AppState :=
  if !getAdEnabledValue state then state
  else modUM state fun um => { um with shopActivity := some false }

/-- `userModelState.flagUserBuyingSomething`. -/
def flagUserBuyingSomething (state : AppState) (url : String) (now : Int) : AppState :=
  if !getAdEnabledValue state then state
  else modUM state fun um =>
    { um with purchaseTime := some now, purchaseUrl := some url,
              purchaseActive := some true }

/-- `userModelState.getUserBuyingState`. -/
def getUserBuyingState (state : AppState) : Option Bool :=
  state.userModel.purchaseActive

/-- `userModelState.getUserModelTimingMdl` (absent model defaults to an empty
list; the opaque elph blob is modelled as `List Int`). -/
def getUserModelTimingMdl (state : AppState) : List Int :=
  state.userModel.timingModel.getD []

/-- `userModelState.setUserModelTimingMdl`. -/
def setUserModelTimingMdl (state : AppState) (model : List Int) : AppState :=
  if !getAdEnabledValue state then state
  else modUM state fun um => { um with timingModel := some model }

/-- `userModelState.setServedAd`. -/
def setServedAd (state : AppState) (adServed : Option String) (adClass : Option String)
    (now : Int) : AppState :=
  if !jsTruthyBool (adServed.map fun s => decide (s ≠ "")) || !getAdEnabledValue state then state
  else modUM state fun um =>
    { um with lastAdTime := some now, adServed := adServed, adClass := adClass }

/-- `userModelState.setLastUserActivity`. -/
def setLastUserActivity (state : AppState) (now : Int) : AppState :=
  if !getAdEnabledValue state then state
  else modUM state fun um => { um with lastUserActivity := some now }

/-- `userModelState.setLocale`. -/
def setLocale (state : AppState) (locale : String) : AppState :=
  if !getAdEnabledValue state then state
  else modUM state fun um => { um with locale := some locale }

/-- `userModelState.setLastUserIdleStopTime`. -/
def setLastUserIdleStopTime (state : AppState) (now : Int) : AppState :=
  if !getAdEnabledValue state then state
  else modUM state fun um => { um with lastUserIdleStopTime := some now }

/-- `userModelState.getLastUserIdleStopTime`. -/
def getLastUserIdleStopTime (state : AppState) : Option Int :=
  state.userModel.lastUserIdleStopTime

/-- `userModelState.getSSID` (`value || null`). -/
def getSSID (state : AppState) : Option String :=
  state.userModel.currentSSID

/-- `userModelState.getAdPlace` (falls back to UNDISCLOSED). -/
def getAdPlace (state : AppState) : String :=
  match state.userModel.places, getSSID state with
  | some places, some ssid =>
      match assocGet places ssid with
      | some place => if place = ("") then ("UNDISCLOSED") else place
      | none => ("UNDISCLOSED")
  | _, _ => ("UNDISCLOSED")

/-- `userModelState.setSSID` (a falsy value becomes the string unknown). -/
def setSSID (state : AppState) (value : Option String) : AppState :=
  if !getAdEnabledValue state then state
  else
    let current := getSSID state
    let value := match value with
      | none => ("unknown")
      | some v => if v = ("") then ("unknown") else v
    let state1 := modUM state fun um => { um with currentSSID := some value }
    if current ≠ some value then
      { state1 with settings := { state1.settings with adsPlace := some (getAdPlace state1) } }
    else state1

/-- `userModelState.getAdUUID` (string or undefined). -/
def getAdUUID (state : AppState) : Option String :=
  state.userModel.adUUID

/-- `userModelState.setAdUUID`. -/
def setAdUUID (state : AppState) (uuid : String) : AppState :=
  if !getAdEnabledValue state then state
  else modUM state fun um => { um with adUUID := some uuid }

/-- `getUserSurveyQueue` (absent queue defaults to the empty list). -/
def getUserSurveyQueue (state : AppState) : List Survey :=
  state.userModel.userSurveyQueue.getD []

/-- `setUserSurveyQueue`. -/
def setUserSurveyQueue (state : AppState) (queue : List Survey) : AppState :=
  if !getAdEnabledValue state then state
  else modUM state fun um => { um with userSurveyQueue := some queue }

/-- `getReportingEventQueue` (absent queue defaults to the empty list). -/
def getReportingEventQueue (state : AppState) : List AdEvent :=
  state.userModel.reportingEventQueue.getD []

/-- `setReportingEventQueue`. -/
def setReportingEventQueue (state : AppState) (queue : List AdEvent) : AppState :=
  if !getAdEnabledValue state then state
  else modUM state fun um => { um with reportingEventQueue := some queue }

/-- `userModelState.appendToUserSurveyQueue`. -/
def appendToUserSurveyQueue (state : AppState) (survey : Survey) : AppState :=
  setUserSurveyQueue state (getUserSurveyQueue state ++ [survey])

/-- `userModelState.appendToReportingEventQueue`. -/
def appendToReportingEventQueue (state : AppState) (event : AdEvent) : AppState :=
  setReportingEventQueue state (getReportingEventQueue state ++ [event])

/-! ## The engine of `src/unnamed/part_000` -/

/-- The `noop` gate: bail out (returning the state unchanged) when the
classifier matrices have not been loaded yet or ads are disabled.
`initialized` stands for `matrixData && priorData` being present. -/
def noopB (state : AppState) (initialized : Bool) : Bool :=
  !initialized || !getAdEnabledValue state

/-- Modelled from the spec: the notification-type constant for ad-shown
events; the `notificationTypes` module is not under `src/`, and only the
distinctness of its string constants matters here. -/
def AD_SHOWN : String := "adShown"

/-- Modelled from the spec: the notification-outcome constant. -/
def NOTIFICATION_RESULT : String := "notificationResult"

/-- Modelled from the spec: the notification-click constant. -/
def NOTIFICATION_CLICK : String := "notificationClick"

/-- Modelled from the spec: the notification-timeout constant. -/
def NOTIFICATION_TIMEOUT : String := "notificationTimeout"

/-- The reporting events modelled here, with the action fields each branch of
`generateAdReportingEvent` reads (the `load` and `settings` branches are not
needed by any claim and are not part of the model's input space). -/
inductive ReportingEvent where
  | notify (eventName : String) (dataUuid : String) (dataResult : String)
           (dataUrl : String) (dataHierarchy : List String)
  | blur (tabValueTabId : Int)
  | focus (tabId : Int)
  | place (eventType : String)
deriving DecidableEq

/-- The outcome→taxonomy translation `{clicked→clicked, closed→dismissed,
ignored→timeout}`; an unknown outcome passes through (`translate[result] || result`). -/
def translateResult (result : String) : String :=
  if result = ("clicked") then ("clicked")
  else if result = ("closed") then ("dismissed")
  else if result = ("ignored") then ("timeout")
  else result

/-- The `switch (eventType)` of `generateAdReportingEvent`: build the event
record (and apply the seen-map side effect of a clicked/dismissed outcome).
`none` models the early `return state` branches for events not captured. -/
def buildReportMap (state : AppState) (ev : ReportingEvent) (stamp : String) :
    Option (AdEvent × AppState) :=
  match ev with
  | .notify eventName dataUuid dataResult dataUrl dataHierarchy =>
      if eventName = AD_SHOWN then
        some ({ type := ("notify"), stamp := stamp,
                notificationType := some ("generated"),
                notificationClassification := some dataHierarchy,
                notificationCatalog := some ("unspecified-catalog"),
                notificationUrl := some dataUrl,
                notificationId := some dataUuid }, state)
      else if eventName = NOTIFICATION_RESULT then
        let nt := translateResult dataResult
        let state1 :=
          if nt = ("clicked") || nt = ("dismissed") then recordAdUUIDSeen state dataUuid 1
          else state
        some ({ type := ("notify"), stamp := stamp,
                notificationType := some nt,
                notificationId := some dataUuid }, state1)
      else none
  | .blur tabValueTabId =>
      some ({ type := ("blur"), stamp := stamp, tabId := some (toString tabValueTabId) }, state)
  | .focus tabId =>
      some ({ type := ("focus"), stamp := stamp, tabId := some (toString tabId) }, state)
  | .place eventType =>
      some ({ type := eventType, stamp := stamp, place := some (getAdPlace state) }, state)

/-- `generateAdReportingEvent`: build the record, then append it to the
reporting queue unless it is structurally identical to the queue's last
record once that record's stamp is overwritten with the new stamp. -/
def generateAdReportingEvent (state : AppState) (ev : ReportingEvent) (stamp : String)
    (initialized : Bool) : AppState :=
  if noopB state initialized then state
  else
    match buildReportMap state ev stamp with
    | none => state
    | some (map, state1) =>
        match (getReportingEventQueue state1).getLast? with
        | some last =>
            if ({ last with stamp := map.stamp } : AdEvent) = map then state1
            else appendToReportingEventQueue state1 map
        | none => appendToReportingEventQueue state1 map

/-- One catalog entry of the sample ad feed. -/
structure AdInfo where
  uuid : String
  notificationText : String := ""
  notificationURL : String := ""
  advertiser : String := ""
deriving DecidableEq

/-- The ad catalog bundle (`sampleAdFeed`): a string-keyed map of category
name to ad list, modelled as an association list with distinct keys. -/
structure AdBundle where
  categories : List (String × List AdInfo)
deriving DecidableEq

/-- `bundle.categories[key]` (an empty ad list is still a present, truthy value). -/
def lookupCat (cats : List (String × List AdInfo)) (key : String) : Option (List AdInfo) :=
  (cats.find? fun p => p.1 = key).map fun p => p.2

/-- The JS `String.prototype.split` with the one-character separator `-`,
implemented by structural recursion over the character data (an empty string
splits to `[""]`, as in JS). -/
def splitDashAux : List Char → List Char → List String
  | [], acc => [String.mk acc.reverse]
  | c :: rest, acc =>
      if c = ('-' : Char) then String.mk acc.reverse :: splitDashAux rest []
      else splitDashAux rest (c :: acc)

/-- `category.split('-')`. -/
def jsSplitDash (s : String) : List String :=
  splitDashAux s.data []

/-- The JS `Array.prototype.join('-')`. -/
def joinDash : List String → String
  | [] => ("")
  | [s] => s
  | s :: rest => s ++ ("-") ++ joinDash rest

/-- `hierarchy.slice(0, n).join('-')`. -/
def prefixJoin (hierarchy : List String) (n : Nat) : String :=
  joinDash (hierarchy.take n)

/-- The hierarchical-fallback loop of `checkReadyAdServe`: probe the prefix of
length `k`, then `k - 1`, ..., then `1`; stop at the first present key. -/
def hierLookupGo (cats : List (String × List AdInfo)) (hierarchy : List String) :
    Nat → Option (String × List AdInfo)
  | 0 => none
  | n + 1 =>
      let winnerOverTime := prefixJoin hierarchy (n + 1)
      match lookupCat cats winnerOverTime with
      | some result => some (winnerOverTime, result)
      | none => hierLookupGo cats hierarchy n

/-- The whole fallback: start from the full dash-delimited path. -/
def hierLookup (cats : List (String × List AdInfo)) (hierarchy : List String) :
    Option (String × List AdInfo) :=
  hierLookupGo cats hierarchy hierarchy.length

/-- The observability records emitted by `checkReadyAdServe`
(`appActions.onUserModelLog` calls and the notification surface). -/
inductive LogEntry where
  | adNotServed (reason : String)
  | adRoundRobin (category : String)
  | surveyShown
  | adShown (category : String) (winnerOverTime : String) (uuid : String)
deriving DecidableEq

/-- The module context `checkReadyAdServe` reads: the foreground flag, the
init gate, the wall clock, the catalog bundle, and the external classifier
interface (`um.deriveCategoryScores`, `um.vectorIndexOfMax`, `priorData.names`).
`chooseIx n` models the random index draw of `randomKey` on an array of
`n` keys (`keys.length * Math.random() << 0`). -/
structure ServeEnv where
  initialized : Bool
  foregroundP : Bool
  now : Int
  stampNow : String
  catNames : List String
  bundle : Option AdBundle
  deriveCategoryScores : List (List Rat) → List Rat
  vectorIndexOfMax : List Rat → Nat
  chooseIx : Nat → Nat

/-- `if (!category)`: an absent or empty winning category name is falsy. -/
def jsCategory (category : Option String) : Option String :=
  match category with
  | none => none
  | some c => if c = ("") then none else some c

/-- The survey branch: `underscore.findWhere(surveys, {status: 'available'})`
followed by an in-place status transition of the found survey. -/
def markSurveyDisplayed : List Survey → String → List Survey
  | [], _ => []
  | s :: rest, stamp =>
      if s.status = ("available") then
        { s with status := ("display"), status_at := some stamp } :: rest
      else s :: markSurveyDisplayed rest stamp

/-- The tail of `checkReadyAdServe` from the random pick on: draw an index
into the not-seen pool, validate the payload, and either serve (appending the
shown timestamp) or report a not-served outcome. -/
def serveFromPool (env : ServeEnv) (state : AppState) (category winnerOverTime : String)
    (pool : List AdInfo) (logs : List LogEntry) : AppState × List LogEntry :=
  match pool.get? (env.chooseIx pool.length) with
  | none => (state, logs ++ [LogEntry.adNotServed ("no ad for winnerOverTime")])
  | some payload =>
      if payload.notificationText = ("") || payload.notificationURL = ("")
          || payload.advertiser = ("") then
        (state, logs ++ [LogEntry.adNotServed ("incomplete ad information")])
      else
        (appendAdShownToAdHistory state env.now,
         logs ++ [LogEntry.adShown category winnerOverTime payload.uuid])

/-- `checkReadyAdServe`: the ad-selection state machine.  Notifications and
log calls are collected as the returned `LogEntry` list (the `noop` early
return emits nothing). -/
def checkReadyAdServe (env : ServeEnv) (state : AppState) : AppState × List LogEntry :=
  if noopB state env.initialized then (state, [])
  else if !env.foregroundP then (state, [LogEntry.adNotServed ("not in foreground")])
  else if !allowedToShowAdBasedOnHistory state env.now then
    (state, [LogEntry.adNotServed ("not allowed based on history")])
  else
    let surveys := getUserSurveyQueue state
    match surveys.find? fun s => s.status = ("available") with
    | some _ =>
        (setUserSurveyQueue state (markSurveyDisplayed surveys env.stampNow),
         [LogEntry.surveyShown])
    | none =>
      match env.bundle with
      | none => (state, [LogEntry.adNotServed ("no ad catalog")])
      | some bundle =>
        let history := getPageScoreHistory state
        let scores := env.deriveCategoryScores history
        let indexOfMax := env.vectorIndexOfMax scores
        match jsCategory (env.catNames.get? indexOfMax) with
        | none => (state, [LogEntry.adNotServed ("no category at offset indexOfMax")])
        | some category =>
          let hierarchy := jsSplitDash category
          match hierLookup bundle.categories hierarchy with
          | none => (state, [LogEntry.adNotServed ("no ads for category")])
          | some (winnerOverTime, result) =>
            let seen := getAdUUIDSeen state
            let adsSeen := result.filter fun x => jsTruthyNum (assocGet seen x.uuid)
            let adsNotSeen := result.filter fun x => !jsTruthyNum (assocGet seen x.uuid)
            if adsNotSeen.length ≤ 0 then
              let state1 := result.foldl (fun st x => recordAdUUIDSeen st x.uuid 0) state
              serveFromPool env state1 category winnerOverTime adsSeen
                [LogEntry.adRoundRobin category]
            else
              serveFromPool env state category winnerOverTime adsNotSeen []

/-! ## Timing model adapter -/

/-- The external interfaces the timing-model path consumes: the classifier
(`um`), and the opaque online-learning model (`elph`), whose blob is
modelled as `List Int`. -/
structure TimingEnv where
  deriveCategoryScores : List (List Rat) → List Rat
  vectorIndexOfMax : List Rat → Nat
  alphabetizer : String → Option Bool → Option Bool → Bool → Bool → String → String → String
  initOnlineELPH : List Int
  updateOnlineELPH : String → List Int → List Int
  now : Int

/-- `validateState` applied to a possibly-undefined argument: an undefined
state is not an Immutable.Map, so the `assert.ok(isMap(state))` fails. -/
def validateStateJs (state : Option AppState) : Except JsError AppState :=
  match state with
  | some st => Except.ok st
  | none => Except.error JsError.assertionFailed

/-- `userModelState.getSearchState` as invoked — possibly without its state
argument (`stateToLetterStd` calls it with none). -/
def getSearchStateJs (state : Option AppState) : Except JsError (Option Bool) := do
  let st ← validateStateJs state
  pure st.userModel.searchActivity

/-- `userModelState.getShoppingState` as invoked — possibly without its state argument. -/
def getShoppingStateJs (state : Option AppState) : Except JsError (Option Bool) := do
  let st ← validateStateJs state
  pure st.userModel.shopActivity

/-- `userModelState.getUserBuyingState` as invoked — possibly without its state argument. -/
def getUserBuyingStateJs (state : Option AppState) : Except JsError (Option Bool) := do
  let st ← validateStateJs state
  pure st.userModel.purchaseActive

/-- `valueToLowHigh`. -/
def valueToLowHigh (x : Rat) (thresh : Rat) : String :=
  if x < thresh then ("low") else ("high")

/-- `topicVariance`.  In JS an out-of-range or zero dominant score makes
`nback / scores[indexOfMax]` NaN or Infinity, whose `< 1.1` comparison is
false, yielding the string high; both cases are made explicit here. -/
def topicVariance (env : TimingEnv) (state : AppState) : String :=
  let history := getPageScoreHistory state
  let nback := history.length
  let scores := env.deriveCategoryScores history
  match scores.get? (env.vectorIndexOfMax scores) with
  | none => ("high")
  | some s =>
      if s = 0 then ("high")
      else valueToLowHigh ((nback : Rat) / s) ((11 : Rat) / 10)

/-- `recencyCalc`.  An absent idle-stop time makes `now - undefined` NaN in
JS, and NaN thresholds to high; the `none` case makes that explicit. -/
def recencyCalc (env : TimingEnv) (state : AppState) : String :=
  match getLastUserIdleStopTime state with
  | none => ("high")
  | some t => valueToLowHigh ((env.now - t : Int) : Rat) 60

/-- `stateToLetterStd`.  The source calls `getSearchState()` and
`getShoppingState()` without their state argument, so the second step
always throws; the remainder is kept for fidelity. -/
def stateToLetterStd (env : TimingEnv) (state : AppState) : Except JsError String := do
  let tvar := topicVariance env state
  let sch ← getSearchStateJs none
  let shp ← getShoppingStateJs none
  let buy ← (do
    if jsTruthyBool shp then pure shp else getUserBuyingStateJs none)
  let rec1 := recencyCalc env state
  pure (env.alphabetizer tvar sch buy false false ("low") rec1)

/-- `updateTimingModel` (default `special = null`, modelled as `none`):
dereferencing `special.length` on null throws a TypeError before anything
else runs; an empty special symbol selects `stateToLetterStd`. -/
def updateTimingModel (env : TimingEnv) (state : AppState) (special : Option String)
    (initialized : Bool) : Except JsError AppState :=
  if noopB state initialized then Except.ok state
  else
    match special with
    | none => Except.error JsError.typeError
    | some sp => do
        let letter ← (if sp.length = 0 then stateToLetterStd env state else pure sp)
        let mdl := getUserModelTimingMdl state
        let mdl1 := if mdl.length = 0 then env.initOnlineELPH else mdl
        let mdl2 := env.updateOnlineELPH letter mdl1
        pure (setUserModelTimingMdl state mdl2)

/-! ## Shopping detection -/

/-- `testShoppingData`; `getHostname` stands for `urlUtil.getHostname`,
`now` for `new Date().getTime()`.  Note the guard variable `lastShopState`
is bound to `getSearchState`, not `getShoppingState`. -/
def testShoppingData (getHostname : String → String) (now : Int)
    (state : AppState) (url : String) (initialized : Bool) : AppState :=
  if noopB state initialized then state
  else
    let hostname := getHostname url
    let lastShopState := getSearchState state
    if hostname = ("amazon.com") then
      flagShoppingState state url now
    else if hostname ≠ ("amazon.com") && jsTruthyBool lastShopState then
      unFlagShoppingState state
    else state

/-! ## Ad UUID and the upload pipeline -/

/-- Module-level mutable context of the upload scheduler: the pending
one-shot timer, recorded as the delay it was armed with (`none` = no timer). -/
structure Globals where
  collectActivityId : Option Int := none
deriving DecidableEq

/-- `oneDay` (production values: `testingP` is false). -/
def oneDay : Int := 86400 * 1000

/-- `oneHour` (production values: `testingP` is false). -/
def oneHour : Int := 3600 * 1000

/-- `collectActivityAsNeeded`; `parseTime` stands for
`(s) => new Date(s).getTime()`, `now` for `underscore.now()`. -/
def collectActivityAsNeeded (g : Globals) (state : AppState) (adEnabled : Bool)
    (now : Int) (parseTime : String → Int) : Globals × AppState :=
  if !adEnabled then ({ collectActivityId := none }, state)
  else if g.collectActivityId.isSome then (g, state)
  else
    let mark := (getReportingEventQueue state).getLast?
    let retryIn :=
      match mark with
      | none => oneHour
      | some m =>
          let r := now - parseTime m.stamp
          if r > oneHour then oneHour else r
    ({ collectActivityId := some retryIn }, state)

/-- `generateAndSetAdUUIDRegardless`; `freshUuid` stands for `uuidv4()`. -/
def generateAndSetAdUUIDRegardless (state : AppState) (freshUuid : String) : AppState :=
  setAdUUID state freshUuid

/-- `generateAndSetAdUUIDButOnlyIfDNE`. -/
def generateAndSetAdUUIDButOnlyIfDNE (state : AppState) (freshUuid : String) : AppState :=
  match getAdUUID state with
  | none => generateAndSetAdUUIDRegardless state freshUuid
  | some _ => state

/-- `confirmAdUUIDIfAdEnabled`. -/
def confirmAdUUIDIfAdEnabled (g : Globals) (state : AppState) (freshUuid : String)
    (now : Int) (parseTime : String → Int) : Globals × AppState :=
  let adEnabled := getAdEnabledValue state
  let state1 := if adEnabled then generateAndSetAdUUIDButOnlyIfDNE state freshUuid else state
  collectActivityAsNeeded g state1 adEnabled now parseTime

/-- The `removeAllHistory` of `part_000`: wipe the behavioral sub-record,
then re-establish a fresh adUUID if ads are enabled. -/
def removeAllHistoryApp (g : Globals) (state : AppState) (freshUuid : String)
    (now : Int) (parseTime : String → Int) : Globals × AppState :=
  confirmAdUUIDIfAdEnabled g (removeAllHistory state) freshUuid now parseTime

/-- The result of the `roundtrip` PUT, as seen by its callback. -/
inductive NetResult where
  | success
  | failure (statusCode : Int)
deriving DecidableEq

/-- `mark.uuid = uuidv4()` written back through the whole-queue snapshot. -/
def assignLastUuid (events : List AdEvent) (freshUuid : String) : List AdEvent :=
  match events.getLast? with
  | none => events
  | some m => events.dropLast ++ [{ m with uuid := some freshUuid }]

/-- `collectActivity` together with its upload callback.  The second
component models the `appActions.onUserModelUploadLogs(stamp, retryIn)`
dispatch (`none` = no dispatch, i.e. the `noop` path): the watermark
passed on (null unless the attempt succeeded or was rejected with
status 400) and the next retry delay. -/
def collectActivity (state : AppState) (initialized : Bool) (freshUuid : String)
    (res : NetResult) : AppState × Option (Option String × Int) :=
  if noopB state initialized then (state, none)
  else
    let events := getReportingEventQueue state
    match events.getLast? with
    | none => (state, some (none, oneDay))
    | some mark =>
        let state1 :=
          match mark.uuid with
          | none => setReportingEventQueue state (assignLastUuid events freshUuid)
          | some _ => state
        match res with
        | NetResult.success => (state1, some (some mark.stamp, oneDay))
        | NetResult.failure code =>
            (state1, some ((if code ≠ 400 then none else some mark.stamp), oneHour))

/-- `uploadLogs(state, stamp, retryIn)`: prune the queue past a truthy
watermark (strict string comparison on the ISO stamps) and, if a timer
handle is live, rearm it at `retryIn`.  The survey GET is a side effect
with no state impact. -/
def uploadLogs (g : Globals) (state : AppState) (stamp : Option String) (retryIn : Int)
    (initialized : Bool) : Globals × AppState :=
  if noopB state initialized then (g, state)
  else
    let events := getReportingEventQueue state
    let state1 :=
      match stamp with
      | some stampVal =>
          setReportingEventQueue state (events.filter fun entry => stampVal < entry.stamp)
      | none => state
    let g1 := if g.collectActivityId.isSome then { g with collectActivityId := some retryIn } else g
    (g1, state1)

/-! ## Concrete values used by the closed examples and witnesses -/

/-- A minimal enabled state (caps 2/hour, 5/day). -/
def baseEnabledState : AppState :=
  { settings := { adsEnabled := true, adsPerHour := 2, adsPerDay := 5 } }

/-- A complete sports ad used by the hierarchical-fallback example. -/
def adSports : AdInfo :=
  { uuid := "ad-1", notificationText := "buy boots",
    notificationURL := "https://boots.example", advertiser := "acme" }

/-- A catalog containing only the top-level `sports` bucket. -/
def sportsBundle : AdBundle :=
  { categories := [(("sports"), [adSports])] }

/-- A serve context whose classifier always elects the first category name. -/
def sportsEnv : ServeEnv :=
  { initialized := true, foregroundP := true, now := 1000000,
    stampNow := "2018-06-01T00:00:00.000Z",
    catNames := ["sports-rugby-worldcup"],
    bundle := some sportsBundle,
    deriveCategoryScores := fun _ => [1],
    vectorIndexOfMax := fun _ => 0,
    chooseIx := fun _ => 0 }

/-- A clicked-outcome reporting record for ad `X`. -/
def c3Event : AdEvent :=
  { type := "notify", stamp := "2018-01-01T00:00:00.000Z",
    notificationType := some ("clicked"), notificationId := some ("X") }

/-- An enabled state whose queue already ends with `c3Event` and whose
seen-map holds `X ↦ 0` (as left by a round-robin reset). -/
def c3State : AppState :=
  { settings := { adsEnabled := true },
    userModel := { adsUUIDSeen := some [(("X"), 0)],
                   reportingEventQueue := some [c3Event] } }

/-- Two reporting records with increasing stamps, for the upload witness. -/
def ev8a : AdEvent := { type := "focus", stamp := "a", uuid := some ("q") }

/-- The later of the two records. -/
def ev8b : AdEvent := { type := "blur", stamp := "b", uuid := some ("r") }

/-- An enabled state whose reporting queue holds `ev8a` then `ev8b`. -/
def queue8State : AppState :=
  { settings := { adsEnabled := true },
    userModel := { reportingEventQueue := some [ev8a, ev8b] } }

/-- An enabled state whose reporting queue holds only `ev8a`. -/
def queue8State1 : AppState :=
  { settings := { adsEnabled := true },
    userModel := { reportingEventQueue := some [ev8a] } }

/-- A catalog with no prefix of the sports hierarchy at any level. -/
def musicBundle : AdBundle := { categories := [(("music"), [adSports])] }

/-- The sports serve context pointed at the prefix-free catalog. -/
def musicEnv : ServeEnv := { sportsEnv with bundle := some musicBundle }

/-- A catalog whose matched category carries an empty (yet present) ad list. -/
def emptyCatBundle : AdBundle := { categories := [(("sports"), [])] }

/-- The sports serve context pointed at the empty-list catalog. -/
def emptyCatEnv : ServeEnv := { sportsEnv with bundle := some emptyCatBundle }

/-- An enabled state in which the only sports ad is already marked seen. -/
def seenAllState : AppState :=
  { settings := { adsEnabled := true, adsPerHour := 2, adsPerDay := 5 },
    userModel := { adsUUIDSeen := some [(("ad-1"), 1)] } }

/-! ## Helper lemmas -/

theorem foldl_recentCount (now w : Int) (history : List Int) :
    ∀ (init : Int),
      history.foldl (fun count timeOfAd => if now - timeOfAd < w then count + 1 else count) init
        = init + (history.countP fun t => decide (now - t < w)) := by
  induction history with
  | nil => intro init; simp
  | cons a t ih =>
      intro init
      by_cases h : now - a < w
      · simp [List.foldl, List.countP_cons, h, ih]; ring
      · simp [List.foldl, List.countP_cons, h, ih]

theorem historyRespects_iff (now : Int) (history : List Int) (w cap : Int) :
    historyRespectsRollingTimeConstraint now history w cap = true ↔
      ((history.countP fun t => decide (now - t < w)) : Int) ≤ cap := by
  unfold historyRespectsRollingTimeConstraint
  rw [foldl_recentCount]
  by_cases h : ((history.countP fun t => decide (now - t < w)) : Int) ≤ cap
  · simp [h]
  · simp [h]

theorem ringBufPush_eq {α : Type} (prev : List α) (item : α) (C : Nat) :
    ringBufPush prev item C = (prev ++ [item]).drop (prev.length + 1 - C) := by
  unfold ringBufPush
  by_cases h : prev.length + 1 > C
  · simp [List.length_append, h]
  · have h0 : prev.length + 1 - C = 0 := by omega
    simp [List.length_append, h, h0]

theorem ringBufPush_len {α : Type} (prev : List α) (item : α) (C : Nat) :
    (ringBufPush prev item C).length ≤ C ∨ (ringBufPush prev item C).length = prev.length + 1 := by
  rw [ringBufPush_eq]
  simp [List.length_drop, List.length_append]
  omega

theorem ringBufPush_len_le {α : Type} (prev : List α) (item : α) (C : Nat) :
    (ringBufPush prev item C).length ≤ C := by
  rw [ringBufPush_eq]
  simp [List.length_drop, List.length_append]
  omega

theorem drop_append_assoc {α : Type} (l1 l2 : List α) (k : Nat) (hk : k ≤ l1.length) :
    (l1 ++ l2).drop k = l1.drop k ++ l2 := by
  rw [List.drop_append_eq_append_drop]
  have h0 : k - l1.length = 0 := by omega
  rw [h0, List.drop_zero]

theorem foldl_ringBufPush {α : Type} (C : Nat) (items : List α) (hne : items ≠ []) :
    ∀ (prev : List α),
      List.foldl (fun acc it => ringBufPush acc it C) prev items
        = (prev ++ items).drop (prev.length + items.length - C) := by
  induction items with
  | nil => exact absurd rfl hne
  | cons a t ih =>
      intro prev
      cases t with
      | nil =>
          simp only [List.foldl, ringBufPush_eq, List.length_cons, List.length_nil]
      | cons b t2 =>
          have ht : b :: t2 ≠ [] := by simp
          have step :
              List.foldl (fun acc it => ringBufPush acc it C) prev (a :: b :: t2)
                = List.foldl (fun acc it => ringBufPush acc it C) (ringBufPush prev a C) (b :: t2) := rfl
          rw [step, ih ht (ringBufPush prev a C), ringBufPush_eq]
          have hk : prev.length + 1 - C ≤ (prev ++ [a]).length := by
            simp [List.length_append]
          rw [← drop_append_assoc (prev ++ [a]) (b :: t2) (prev.length + 1 - C) hk,
              List.drop_drop]
          have harr : (prev ++ [a]) ++ (b :: t2) = prev ++ (a :: b :: t2) := by simp
          rw [harr]
          congr 1
          simp only [List.length_drop, List.length_append, List.length_cons, List.length_nil]
          omega

theorem drop_front_of_ge {α : Type} (prev items : List α) (C : Nat) (h : C ≤ items.length) :
    (prev ++ items).drop (prev.length + items.length - C) = items.drop (items.length - C) := by
  rw [List.drop_append_eq_append_drop]
  have h1 : prev.length ≤ prev.length + items.length - C := by omega
  rw [List.drop_eq_nil_of_le h1]
  have h2 : prev.length + items.length - C - prev.length = items.length - C := by omega
  rw [h2, List.nil_append]

/-! ## Claim theorems -/

/-- Claim C1: `allowedToShowAdBasedOnHistory` returns true if and only if the
number of shown-ad timestamps strictly inside the last 3600 seconds is at
most the hourly cap and the number strictly inside the last 86400 seconds is
at most the daily cap; in particular exactly `hourCap` recent entries (with
the day cap respected) still pass, while `hourCap + 1` entries (or
`dayCap + 1` day-recent entries) are refused. -/
theorem claim1_rate_limiter :
    ∀ (state : AppState) (now : Int),
      (allowedToShowAdBasedOnHistory state now = true ↔
        (((state.userModel.adsShownHistory.getD []).countP fun t => decide (now - t < 3600)) : Int)
            ≤ state.settings.adsPerHour ∧
        (((state.userModel.adsShownHistory.getD []).countP fun t => decide (now - t < 86400)) : Int)
            ≤ state.settings.adsPerDay) ∧
      ((((state.userModel.adsShownHistory.getD []).countP fun t => decide (now - t < 3600)) : Int)
            = state.settings.adsPerHour →
       (((state.userModel.adsShownHistory.getD []).countP fun t => decide (now - t < 86400)) : Int)
            ≤ state.settings.adsPerDay →
       allowedToShowAdBasedOnHistory state now = true) ∧
      ((((state.userModel.adsShownHistory.getD []).countP fun t => decide (now - t < 3600)) : Int)
            = state.settings.adsPerHour + 1 →
       allowedToShowAdBasedOnHistory state now = false) ∧
      ((((state.userModel.adsShownHistory.getD []).countP fun t => decide (now - t < 86400)) : Int)
            = state.settings.adsPerDay + 1 →
       allowedToShowAdBasedOnHistory state now = false) := by
  intro state now
  have hiff : allowedToShowAdBasedOnHistory state now = true ↔
      (((state.userModel.adsShownHistory.getD []).countP fun t => decide (now - t < 3600)) : Int)
          ≤ state.settings.adsPerHour ∧
      (((state.userModel.adsShownHistory.getD []).countP fun t => decide (now - t < 86400)) : Int)
          ≤ state.settings.adsPerDay := by
    unfold allowedToShowAdBasedOnHistory
    have h1 := historyRespects_iff now (state.userModel.adsShownHistory.getD []) (60 * 60)
      state.settings.adsPerHour
    have h2 := historyRespects_iff now (state.userModel.adsShownHistory.getD []) (24 * (60 * 60))
      state.settings.adsPerDay
    norm_num at h1 h2 ⊢
    rcases hr1 : historyRespectsRollingTimeConstraint now (state.userModel.adsShownHistory.getD [])
        3600 state.settings.adsPerHour with _ | _ <;>
      rcases hr2 : historyRespectsRollingTimeConstraint now (state.userModel.adsShownHistory.getD [])
          86400 state.settings.adsPerDay with _ | _ <;>
      simp_all
  refine ⟨hiff, ?_, ?_, ?_⟩
  · intro h1 h2
    exact hiff.mpr ⟨le_of_eq h1, h2⟩
  · intro h1
    rcases hb : allowedToShowAdBasedOnHistory state now with _ | _
    · rfl
    · have := hiff.mp hb
      omega
  · intro h1
    rcases hb : allowedToShowAdBasedOnHistory state now with _ | _
    · rfl
    · have := hiff.mp hb
      omega

/-- Witness for C1 at a concrete state: two ads shown in the last hour with an
hourly cap of 2 still pass; the check refuses once a third hour-recent entry
appears. -/
theorem claim1_witness :
    allowedToShowAdBasedOnHistory
      { baseEnabledState with
        userModel := { adsShownHistory := some [999000, 999500] } } 1000000 = true ∧
    allowedToShowAdBasedOnHistory
      { baseEnabledState with
        userModel := { adsShownHistory := some [999000, 999500, 999900] } } 1000000 = false := by
  constructor
  · exact (claim1_rate_limiter _ 1000000).2.1 (by decide) (by decide)
  · exact (claim1_rate_limiter _ 1000000).2.2.1 (by decide)

/-- Claim C2: each ring-buffer push appends and, when the resulting size
exceeds the capacity `C`, evicts exactly `size - C` elements from the front
(bursts supported); hence the buffer length never exceeds `C` after a push,
pushing at least `C` items leaves exactly the last `C` pushed items in their
original relative order, and the two state-level histories respect their
capacities 5 and 99 after every (enabled) append. -/
theorem claim2_ring_buffer :
    (∀ (α : Type) (prev : List α) (item : α) (C : Nat),
        ringBufPush prev item C = (prev ++ [item]).drop (prev.length + 1 - C)) ∧
    (∀ (α : Type) (prev : List α) (item : α) (C : Nat),
        (ringBufPush prev item C).length ≤ C) ∧
    (∀ (α : Type) (C : Nat) (prev items : List α), 0 < C → C ≤ items.length →
        List.foldl (fun acc it => ringBufPush acc it C) prev items
          = items.drop (items.length - C)) ∧
    (∀ (state : AppState) (pageScore : List Rat), getAdEnabledValue state = true →
        ((appendPageScoreToHistoryAndRotate state pageScore).userModel.pageScoreHistory.getD
            []).length ≤ 5) ∧
    (∀ (state : AppState) (now : Int), getAdEnabledValue state = true →
        ((appendAdShownToAdHistory state now).userModel.adsShownHistory.getD []).length ≤ 99) := by
  refine ⟨fun α => ringBufPush_eq, fun α => ringBufPush_len_le, ?_, ?_, ?_⟩
  · intro α C prev items hC hlen
    have hne : items ≠ [] := by
      intro h
      rw [h] at hlen
      simp at hlen
      omega
    rw [foldl_ringBufPush C items hne prev, drop_front_of_ge prev items C hlen]
  · intro state pageScore h
    simp only [appendPageScoreToHistoryAndRotate, h, Bool.not_true, Bool.false_eq_true,
      if_false, modUM]
    simpa [maxRowsInPageScoreHistory] using
      ringBufPush_len_le (state.userModel.pageScoreHistory.getD []) pageScore 5
  · intro state now h
    simp only [appendAdShownToAdHistory, h, Bool.not_true, Bool.false_eq_true,
      if_false, modUM]
    simpa [maxRowsInAdsShownHistory] using
      ringBufPush_len_le (state.userModel.adsShownHistory.getD []) now 99

/-- Witness for C2 at concrete inputs: pushing 3 items through a buffer of
capacity 2 (starting from a non-empty history) leaves exactly the last 2
pushed items in order, and an enabled state-level append respects the cap. -/
theorem claim2_witness :
    List.foldl (fun acc it => ringBufPush acc it 2) ([9] : List Int) [1, 2, 3] = [2, 3] ∧
    ((appendAdShownToAdHistory baseEnabledState 7).userModel.adsShownHistory.getD
        []).length ≤ 99 := by
  constructor
  · have h := claim2_ring_buffer.2.2.1 Int 2 [9] [1, 2, 3] (by decide) (by decide)
    simpa using h
  · exact claim2_ring_buffer.2.2.2.2 baseEnabledState 7 rfl

theorem collectActivityAsNeeded_snd (g : Globals) (state : AppState) (adEnabled : Bool)
    (now : Int) (parseTime : String → Int) :
    (collectActivityAsNeeded g state adEnabled now parseTime).2 = state := by
  unfold collectActivityAsNeeded
  split
  · rfl
  · split
    · rfl
    · rfl

/-- Claim C6: while ads are disabled every mutating operation on the
behavioral state is a no-op returning the state unchanged — with the one
exception of `removeAllHistory`, which wipes the whole `userModel`
sub-record (leaving settings intact) regardless of the enabled gate. -/
theorem claim6_disabled_gate :
    (∀ (state : AppState) (key : String) (value : JsValue),
        getAdEnabledValue state = false → setUserModelValue state key value = state) ∧
    (∀ (state : AppState) (pageScore : List Rat),
        getAdEnabledValue state = false → appendPageScoreToHistoryAndRotate state pageScore = state) ∧
    (∀ (state : AppState) (now : Int),
        getAdEnabledValue state = false → appendAdShownToAdHistory state now = state) ∧
    (∀ (state : AppState) (uuid : String) (value : Int),
        getAdEnabledValue state = false → recordAdUUIDSeen state uuid value = state) ∧
    (∀ (isURL : String → Bool) (state : AppState) (url : String) (score : Rat) (now : Int),
        getAdEnabledValue state = false → flagSearchState isURL state url score now = state) ∧
    (∀ (isURL : String → Bool) (state : AppState) (url : String) (now : Int),
        getAdEnabledValue state = false → unFlagSearchState isURL state url now = state) ∧
    (∀ (state : AppState) (url : String) (now : Int),
        getAdEnabledValue state = false → flagShoppingState state url now = state) ∧
    (∀ (state : AppState),
        getAdEnabledValue state = false → unFlagShoppingState state = state) ∧
    (∀ (state : AppState) (url : String) (now : Int),
        getAdEnabledValue state = false → flagUserBuyingSomething state url now = state) ∧
    (∀ (state : AppState) (locale : String),
        getAdEnabledValue state = false → setLocale state locale = state) ∧
    (∀ (state : AppState) (value : Option String),
        getAdEnabledValue state = false → setSSID state value = state) ∧
    (∀ (state : AppState) (uuid : String),
        getAdEnabledValue state = false → setAdUUID state uuid = state) ∧
    (∀ (state : AppState) (model : List Int),
        getAdEnabledValue state = false → setUserModelTimingMdl state model = state) ∧
    (∀ (state : AppState) (queue : List Survey),
        getAdEnabledValue state = false → setUserSurveyQueue state queue = state) ∧
    (∀ (state : AppState) (queue : List AdEvent),
        getAdEnabledValue state = false → setReportingEventQueue state queue = state) ∧
    (∀ (state : AppState) (now : Int),
        getAdEnabledValue state = false → setLastUserActivity state now = state) ∧
    (∀ (state : AppState) (now : Int),
        getAdEnabledValue state = false → setLastUserIdleStopTime state now = state) ∧
    (∀ (state : AppState) (adServed adClass : Option String) (now : Int),
        getAdEnabledValue state = false → setServedAd state adServed adClass now = state) ∧
    (∀ (state : AppState),
        (removeAllHistory state).userModel = ({} : UserModel) ∧
        (removeAllHistory state).settings = state.settings) := by
  refine ⟨?_, ?_, ?_, ?_, ?_, ?_, ?_, ?_, ?_, ?_, ?_, ?_, ?_, ?_, ?_, ?_, ?_, ?_, ?_⟩
  · intro state key value h; simp [setUserModelValue, h]
  · intro state pageScore h; simp [appendPageScoreToHistoryAndRotate, h]
  · intro state now h; simp [appendAdShownToAdHistory, h]
  · intro state uuid value h; simp [recordAdUUIDSeen, h]
  · intro isURL state url score now h; simp [flagSearchState, h]
  · intro isURL state url now h; simp [unFlagSearchState, h]
  · intro state url now h; simp [flagShoppingState, h]
  · intro state h; simp [unFlagShoppingState, h]
  · intro state url now h; simp [flagUserBuyingSomething, h]
  · intro state locale h; simp [setLocale, h]
  · intro state value h; simp [setSSID, h]
  · intro state uuid h; simp [setAdUUID, h]
  · intro state model h; simp [setUserModelTimingMdl, h]
  · intro state queue h; simp [setUserSurveyQueue, h]
  · intro state queue h; simp [setReportingEventQueue, h]
  · intro state now h; simp [setLastUserActivity, h]
  · intro state now h; simp [setLastUserIdleStopTime, h]
  · intro state adServed adClass now h; simp [setServedAd, h]
  · intro state; exact ⟨rfl, rfl⟩

/-- Witness for C6 at the default (disabled) state: the locale setter and the
ring-buffer append are no-ops, while removeAllHistory still resets userModel. -/
theorem claim6_witness :
    getAdEnabledValue ({} : AppState) = false ∧
    setLocale ({} : AppState) ("fr") = ({} : AppState) ∧
    appendAdShownToAdHistory ({} : AppState) 5 = ({} : AppState) ∧
    (removeAllHistory ({} : AppState)).userModel = ({} : UserModel) := by
  refine ⟨rfl, ?_, ?_, ?_⟩
  · exact claim6_disabled_gate.2.2.2.2.2.2.2.2.2.1 ({} : AppState) ("fr") rfl
  · exact claim6_disabled_gate.2.2.1 ({} : AppState) 5 rfl
  · exact (claim6_disabled_gate.2.2.2.2.2.2.2.2.2.2.2.2.2.2.2.2.2.2 ({} : AppState)).1

/-- Claim C7: the adUUID is generated only through
`confirmAdUUIDIfAdEnabled` / `generateAndSetAdUUIDButOnlyIfDNE`, which
leaves an existing value untouched (and does nothing while disabled); after
the part_000 history erasure with ads enabled the adUUID is the freshly
generated value (hence differs from any distinct pre-erase value), while
with ads disabled it remains unset. -/
theorem claim7_aduuid :
    (∀ (g : Globals) (state : AppState) (freshUuid u : String) (now : Int)
        (parseTime : String → Int), getAdUUID state = some u →
        getAdUUID (confirmAdUUIDIfAdEnabled g state freshUuid now parseTime).2 = some u) ∧
    (∀ (g : Globals) (state : AppState) (freshUuid : String) (now : Int)
        (parseTime : String → Int), getAdEnabledValue state = false →
        getAdUUID (confirmAdUUIDIfAdEnabled g state freshUuid now parseTime).2
          = getAdUUID state) ∧
    (∀ (g : Globals) (state : AppState) (freshUuid : String) (now : Int)
        (parseTime : String → Int), getAdEnabledValue state = true →
        getAdUUID (removeAllHistoryApp g state freshUuid now parseTime).2 = some freshUuid) ∧
    (∀ (g : Globals) (state : AppState) (freshUuid u : String) (now : Int)
        (parseTime : String → Int), getAdEnabledValue state = true →
        getAdUUID state = some u → freshUuid ≠ u →
        getAdUUID (removeAllHistoryApp g state freshUuid now parseTime).2 ≠ some u) ∧
    (∀ (g : Globals) (state : AppState) (freshUuid : String) (now : Int)
        (parseTime : String → Int), getAdEnabledValue state = false →
        getAdUUID (removeAllHistoryApp g state freshUuid now parseTime).2 = none) := by
  have hconf : ∀ (g : Globals) (state : AppState) (freshUuid : String) (now : Int)
      (parseTime : String → Int),
      (confirmAdUUIDIfAdEnabled g state freshUuid now parseTime).2 =
        (if getAdEnabledValue state then generateAndSetAdUUIDButOnlyIfDNE state freshUuid
         else state) := by
    intro g state freshUuid now parseTime
    unfold confirmAdUUIDIfAdEnabled
    rw [collectActivityAsNeeded_snd]
  refine ⟨?_, ?_, ?_, ?_, ?_⟩
  · intro g state freshUuid u now parseTime h
    rw [hconf]
    by_cases he : getAdEnabledValue state
    · simp only [he, if_true]
      unfold generateAndSetAdUUIDButOnlyIfDNE
      rw [h]
      exact h
    · simp only [he, if_false]
      exact h
  · intro g state freshUuid now parseTime h
    rw [hconf, h]
    simp
  · intro g state freshUuid now parseTime h
    unfold removeAllHistoryApp
    rw [hconf]
    have he : getAdEnabledValue (removeAllHistory state) = getAdEnabledValue state := rfl
    rw [he, h]
    simp only [if_true]
    have hn : getAdUUID (removeAllHistory state) = none := rfl
    unfold generateAndSetAdUUIDButOnlyIfDNE
    rw [hn]
    unfold generateAndSetAdUUIDRegardless setAdUUID
    rw [he, h]
    simp [getAdUUID, modUM]
  · intro g state freshUuid u now parseTime h hu hne
    have h3 : getAdUUID (removeAllHistoryApp g state freshUuid now parseTime).2
        = some freshUuid := by
      unfold removeAllHistoryApp
      rw [hconf]
      have he : getAdEnabledValue (removeAllHistory state) = getAdEnabledValue state := rfl
      rw [he, h]
      simp only [if_true]
      have hn : getAdUUID (removeAllHistory state) = none := rfl
      unfold generateAndSetAdUUIDButOnlyIfDNE
      rw [hn]
      unfold generateAndSetAdUUIDRegardless setAdUUID
      rw [he, h]
      simp [getAdUUID, modUM]
    rw [h3]
    intro hcontra
    exact hne (Option.some.inj hcontra)
  · intro g state freshUuid now parseTime h
    unfold removeAllHistoryApp
    rw [hconf]
    have he : getAdEnabledValue (removeAllHistory state) = getAdEnabledValue state := rfl
    rw [he, h]
    simp only [Bool.false_eq_true, if_false]
    rfl

/-- Witness for C7: with ads enabled and an existing adUUID `u0`, the confirm
path keeps `u0`; after erasure the adUUID is the fresh value, and with ads
disabled erasure leaves it unset. -/
theorem claim7_witness :
    getAdUUID (confirmAdUUIDIfAdEnabled {} { baseEnabledState with
        userModel := { adUUID := some ("u0") } } ("u1") 0 (fun _ => 0)).2 = some ("u0") ∧
    getAdUUID (removeAllHistoryApp {} { baseEnabledState with
        userModel := { adUUID := some ("u0") } } ("u1") 0 (fun _ => 0)).2 = some ("u1") ∧
    getAdUUID (removeAllHistoryApp {} { userModel := { adUUID := some ("u0") } }
        ("u1") 0 (fun _ => 0)).2 = none := by
  refine ⟨?_, ?_, ?_⟩
  · exact claim7_aduuid.1 {} _ ("u1") ("u0") 0 (fun _ => 0) rfl
  · exact claim7_aduuid.2.2.1 {} _ ("u1") 0 (fun _ => 0) rfl
  · exact claim7_aduuid.2.2.2.2 {} _ ("u1") 0 (fun _ => 0) rfl

theorem noopB_false_iff (state : AppState) (initialized : Bool) :
    noopB state initialized = false ↔
      initialized = true ∧ getAdEnabledValue state = true := by
  unfold noopB
  cases initialized <;> cases h : getAdEnabledValue state <;> simp_all

/-- Claim C10: past the noop gate, for any URL whose hostname is not
amazon.com, `testShoppingData` clears the shopping flag exactly when the
search-activity flag is truthy (its guard is bound to `getSearchState`, not
`getShoppingState`); in particular a set shopping flag persists when search
activity is inactive. -/
theorem claim10_shopping_guard :
    ∀ (getHostname : String → String) (now : Int) (state : AppState) (url : String)
      (initialized : Bool),
      noopB state initialized = false →
      getHostname url ≠ ("amazon.com") →
      (testShoppingData getHostname now state url initialized
          = if jsTruthyBool (getSearchState state) then unFlagShoppingState state else state) ∧
      ((testShoppingData getHostname now state url initialized).userModel.shopActivity
          = if jsTruthyBool (getSearchState state) then some false
            else state.userModel.shopActivity) ∧
      (jsTruthyBool (getSearchState state) = false → state.userModel.shopActivity = some true →
          (testShoppingData getHostname now state url initialized).userModel.shopActivity
            = some true) := by
  intro getHostname now state url initialized hnoop hne
  have he : getAdEnabledValue state = true := ((noopB_false_iff state initialized).mp hnoop).2
  have h1 : testShoppingData getHostname now state url initialized
      = if jsTruthyBool (getSearchState state) then unFlagShoppingState state else state := by
    unfold testShoppingData
    rw [hnoop]
    simp [hne]
  have h2 : (testShoppingData getHostname now state url initialized).userModel.shopActivity
      = if jsTruthyBool (getSearchState state) then some false
        else state.userModel.shopActivity := by
    rw [h1]
    by_cases hb : jsTruthyBool (getSearchState state)
    · simp only [hb, if_true]
      simp [unFlagShoppingState, he, modUM]
    · simp only [Bool.not_eq_true] at hb
      simp only [hb, Bool.false_eq_true, if_false]
  refine ⟨h1, h2, ?_⟩
  intro hb hshop
  rw [h2, hb]
  simp [hshop]

/-- Witness for C10: an enabled state with the shopping flag set and no
search activity keeps the shopping flag after visiting a non-amazon URL. -/
theorem claim10_witness :
    ((testShoppingData (fun _ => ("example.com")) 5
        { baseEnabledState with userModel := { shopActivity := some true } }
        ("https://example.com/x") true).userModel.shopActivity) = some true := by
  exact (claim10_shopping_guard (fun _ => ("example.com")) 5
      { baseEnabledState with userModel := { shopActivity := some true } }
      ("https://example.com/x") true rfl (by decide)).2.2 rfl rfl

/-- Claim C9: past the enablement gate, `updateTimingModel` never reaches the
model update through its standard-symbol path — the omitted-argument default
null throws a TypeError at `special.length`, and the empty symbol routes
through `stateToLetterStd`, whose argument-less `getSearchState()` call
fails validation — while any non-empty special symbol performs the
initialize-if-absent-then-update sequence. -/
theorem claim9_timing_model :
    ∀ (env : TimingEnv) (state : AppState) (initialized : Bool),
      noopB state initialized = false →
      (updateTimingModel env state none initialized = Except.error JsError.typeError) ∧
      (updateTimingModel env state (some ("")) initialized
          = Except.error JsError.assertionFailed) ∧
      (∀ (sp : String), sp.length ≠ 0 →
          updateTimingModel env state (some sp) initialized
            = Except.ok (setUserModelTimingMdl state
                (env.updateOnlineELPH sp
                  (if (getUserModelTimingMdl state).length = 0 then env.initOnlineELPH
                   else getUserModelTimingMdl state)))) := by
  intro env state initialized hnoop
  refine ⟨?_, ?_, ?_⟩
  · unfold updateTimingModel
    rw [hnoop]
    rfl
  · unfold updateTimingModel
    rw [hnoop]
    rfl
  · intro sp hsp
    unfold updateTimingModel
    rw [hnoop]
    simp only [Bool.false_eq_true, if_false]
    simp only [hsp, if_neg, if_false]
    rfl

/-- Witness for C9: a concrete enabled state — the default call and the
empty-symbol call throw; a one-letter special symbol updates the model. -/
theorem claim9_witness :
    updateTimingModel
      { deriveCategoryScores := fun _ => [], vectorIndexOfMax := fun _ => 0,
        alphabetizer := fun _ _ _ _ _ _ _ => (""), initOnlineELPH := [7],
        updateOnlineELPH := fun _ m => 1 :: m, now := 0 }
      baseEnabledState none true = Except.error JsError.typeError ∧
    updateTimingModel
      { deriveCategoryScores := fun _ => [], vectorIndexOfMax := fun _ => 0,
        alphabetizer := fun _ _ _ _ _ _ _ => (""), initOnlineELPH := [7],
        updateOnlineELPH := fun _ m => 1 :: m, now := 0 }
      baseEnabledState (some ("a")) true
      = Except.ok (setUserModelTimingMdl baseEnabledState [1, 7]) := by
  constructor
  · exact (claim9_timing_model _ baseEnabledState true rfl).1
  · exact (claim9_timing_model _ baseEnabledState true rfl).2.2 ("a") (by decide)

theorem getQueue_setQueue (state : AppState) (q : List AdEvent)
    (h : getAdEnabledValue state = true) :
    getReportingEventQueue (setReportingEventQueue state q) = q := by
  simp [setReportingEventQueue, getReportingEventQueue, modUM, h]

/-- Claim C8: a successful upload schedules the next attempt at the day
interval and hands `uploadLogs` the last record's stamp as watermark, which
prunes the queue to exactly the events with strictly greater stamps; a
failed upload schedules the hourly retry and clears the watermark (leaving
the queue unpruned for a retry) unless the response status was 400, in
which case the watermark is kept and the rejected events are pruned. -/
theorem claim8_upload_backoff :
    (∀ (state : AppState) (initialized : Bool) (freshUuid : String) (mark : AdEvent),
        noopB state initialized = false →
        (getReportingEventQueue state).getLast? = some mark →
        (collectActivity state initialized freshUuid NetResult.success).2
          = some (some mark.stamp, oneDay)) ∧
    (∀ (state : AppState) (initialized : Bool) (freshUuid : String) (mark : AdEvent)
        (code : Int),
        noopB state initialized = false →
        (getReportingEventQueue state).getLast? = some mark →
        code ≠ 400 →
        (collectActivity state initialized freshUuid (NetResult.failure code)).2
          = some (none, oneHour)) ∧
    (∀ (state : AppState) (initialized : Bool) (freshUuid : String) (mark : AdEvent),
        noopB state initialized = false →
        (getReportingEventQueue state).getLast? = some mark →
        (collectActivity state initialized freshUuid (NetResult.failure 400)).2
          = some (some mark.stamp, oneHour)) ∧
    (∀ (g : Globals) (state : AppState) (stampVal : String) (retryIn : Int)
        (initialized : Bool),
        noopB state initialized = false →
        getReportingEventQueue (uploadLogs g state (some stampVal) retryIn initialized).2
            = (getReportingEventQueue state).filter (fun entry => decide (stampVal < entry.stamp)) ∧
        (∀ e : AdEvent,
            e ∈ getReportingEventQueue (uploadLogs g state (some stampVal) retryIn initialized).2
              ↔ e ∈ getReportingEventQueue state ∧ stampVal < e.stamp)) ∧
    (∀ (g : Globals) (state : AppState) (retryIn : Int) (initialized : Bool),
        getReportingEventQueue (uploadLogs g state none retryIn initialized).2
          = getReportingEventQueue state) ∧
    (∀ (g : Globals) (state : AppState) (stampOpt : Option String) (retryIn : Int)
        (initialized : Bool),
        noopB state initialized = false → g.collectActivityId.isSome = true →
        (uploadLogs g state stampOpt retryIn initialized).1.collectActivityId
          = some retryIn) := by
  refine ⟨?_, ?_, ?_, ?_, ?_, ?_⟩
  · intro state initialized freshUuid mark hnoop hmark
    simp only [collectActivity, hnoop, Bool.false_eq_true, if_false, hmark]
  · intro state initialized freshUuid mark code hnoop hmark hcode
    simp only [collectActivity, hnoop, Bool.false_eq_true, if_false, hmark, hcode]
    simp [hcode]
  · intro state initialized freshUuid mark hnoop hmark
    simp only [collectActivity, hnoop, Bool.false_eq_true, if_false, hmark]
    simp
  · intro g state stampVal retryIn initialized hnoop
    have he : getAdEnabledValue state = true := ((noopB_false_iff state initialized).mp hnoop).2
    have hq : getReportingEventQueue (uploadLogs g state (some stampVal) retryIn initialized).2
        = (getReportingEventQueue state).filter (fun entry => decide (stampVal < entry.stamp)) := by
      simp only [uploadLogs, hnoop, Bool.false_eq_true, if_false]
      exact getQueue_setQueue state _ he
    refine ⟨hq, ?_⟩
    intro e
    rw [hq]
    simp [List.mem_filter]
  · intro g state retryIn initialized
    by_cases hnoop : noopB state initialized = true
    · simp only [uploadLogs, hnoop, if_true]
    · simp only [Bool.not_eq_true] at hnoop
      simp only [uploadLogs, hnoop, Bool.false_eq_true, if_false]
  · intro g state stampOpt retryIn initialized hnoop hsome
    simp only [uploadLogs, hnoop, Bool.false_eq_true, if_false, hsome, if_true]

/-- Witness for C8 at a concrete two-event queue: success yields the day
interval with the last stamp as watermark; pruning at the first stamp keeps
only the strictly newer event; a non-400 failure clears the watermark at
the hour interval; a 400 failure keeps it. -/
theorem claim8_witness :
    (collectActivity queue8State true ("u") NetResult.success).2
        = some (some ("b"), oneDay) ∧
    getReportingEventQueue (uploadLogs { collectActivityId := some 1 } queue8State
        (some ("a")) oneDay true).2 = [ev8b] ∧
    (collectActivity queue8State1 true ("u") (NetResult.failure 500)).2
        = some (none, oneHour) ∧
    (collectActivity queue8State1 true ("u") (NetResult.failure 400)).2
        = some (some ("a"), oneHour) := by
  refine ⟨?_, ?_, ?_, ?_⟩
  · exact claim8_upload_backoff.1 queue8State true ("u") ev8b rfl rfl
  · rw [(claim8_upload_backoff.2.2.2.1 { collectActivityId := some 1 } queue8State ("a")
      oneDay true rfl).1]
    have hlt : (("a" : String) < ("b" : String)) := by
      rw [String.lt_iff_toList_lt]
      decide
    have hnlt : ¬ (("a" : String) < ("a" : String)) := by
      rw [String.lt_iff_toList_lt]
      decide
    simp [queue8State, getReportingEventQueue, ev8a, ev8b, hlt, hnlt]
    decide
  · exact claim8_upload_backoff.2.1 queue8State1 true ("u") ev8a 500 rfl rfl (by decide)
  · exact claim8_upload_backoff.2.2.1 queue8State1 true ("u") ev8a rfl rfl

theorem enabled_setQueue (state : AppState) (q : List AdEvent) :
    getAdEnabledValue (setReportingEventQueue state q) = getAdEnabledValue state := by
  unfold setReportingEventQueue
  split
  · rfl
  · rfl

theorem recordAdUUIDSeen_queue (state : AppState) (uuid : String) (value : Int) :
    getReportingEventQueue (recordAdUUIDSeen state uuid value)
      = getReportingEventQueue state := by
  unfold recordAdUUIDSeen
  split
  · rfl
  · rfl

theorem recordAdUUIDSeen_enabled (state : AppState) (uuid : String) (value : Int) :
    getAdEnabledValue (recordAdUUIDSeen state uuid value) = getAdEnabledValue state := by
  unfold recordAdUUIDSeen
  split
  · rfl
  · rfl

theorem appendQueue_eq (state : AppState) (event : AdEvent)
    (h : getAdEnabledValue state = true) :
    getReportingEventQueue (appendToReportingEventQueue state event)
      = getReportingEventQueue state ++ [event] := by
  unfold appendToReportingEventQueue
  exact getQueue_setQueue state _ h

theorem enabled_appendQueue (state : AppState) (event : AdEvent) :
    getAdEnabledValue (appendToReportingEventQueue state event)
      = getAdEnabledValue state := by
  unfold appendToReportingEventQueue
  exact enabled_setQueue state _

theorem buildReportMap_frame (state : AppState) (ev : ReportingEvent) (stamp : String)
    (map : AdEvent) (st1 : AppState)
    (hb : buildReportMap state ev stamp = some (map, st1)) :
    getReportingEventQueue st1 = getReportingEventQueue state ∧
      getAdEnabledValue st1 = getAdEnabledValue state := by
  cases ev with
  | notify eventName dataUuid dataResult dataUrl dataHierarchy =>
      by_cases h1 : eventName = AD_SHOWN
      · simp only [buildReportMap, h1, if_true] at hb
        obtain ⟨-, h⟩ := Prod.mk.injEq .. ▸ (Option.some.inj hb)
        rw [← h]
        exact ⟨rfl, rfl⟩
      · by_cases h2 : eventName = NOTIFICATION_RESULT
        · simp only [buildReportMap, h1, h2, if_false, if_true] at hb
          obtain ⟨-, h⟩ := Prod.mk.injEq .. ▸ (Option.some.inj hb)
          rw [← h]
          split
          · exact ⟨recordAdUUIDSeen_queue .., recordAdUUIDSeen_enabled ..⟩
          · exact ⟨rfl, rfl⟩
        · simp [buildReportMap, h1, h2] at hb
  | blur tabValueTabId =>
      simp only [buildReportMap] at hb
      obtain ⟨-, h⟩ := Prod.mk.injEq .. ▸ (Option.some.inj hb)
      rw [← h]
      exact ⟨rfl, rfl⟩
  | focus tabId =>
      simp only [buildReportMap] at hb
      obtain ⟨-, h⟩ := Prod.mk.injEq .. ▸ (Option.some.inj hb)
      rw [← h]
      exact ⟨rfl, rfl⟩
  | place eventType =>
      simp only [buildReportMap] at hb
      obtain ⟨-, h⟩ := Prod.mk.injEq .. ▸ (Option.some.inj hb)
      rw [← h]
      exact ⟨rfl, rfl⟩

/-- Counterexample to C3 as stated: with ad `X` reset to unseen (seen value 0)
and the queue ending in an identical clicked record, a repeated
clicked-outcome notify event has its append suppressed (the queue is
unchanged) — yet the returned state differs from the input state, because
`recordAdUUIDSeen` runs before the dedup check and re-marks `X` as seen. -/
theorem claim3_counterexample :
    generateAdReportingEvent c3State
        (ReportingEvent.notify NOTIFICATION_RESULT ("X") ("clicked") ("") [])
        ("2018-01-01T00:05:00.000Z") true ≠ c3State ∧
    getReportingEventQueue (generateAdReportingEvent c3State
        (ReportingEvent.notify NOTIFICATION_RESULT ("X") ("clicked") ("") [])
        ("2018-01-01T00:05:00.000Z") true) = getReportingEventQueue c3State := by
  constructor
  · decide
  · decide

/-- Claim C3 (amended): if the newly built record is structurally identical
to the queue's last record except for the stamp, the append is suppressed
and the reporting queue is returned unchanged (though a notify-outcome
event may still have updated the seen-map before the check); consequently
recording preserves the no-adjacent-duplicates invariant, two identical
back-to-back events leave queue length 1, and a third, different event
yields length 2. -/
theorem claim3_dedup :
    (∀ (state : AppState) (ev : ReportingEvent) (stamp : String) (initialized : Bool)
        (map : AdEvent) (st1 : AppState) (last : AdEvent),
        buildReportMap state ev stamp = some (map, st1) →
        (getReportingEventQueue state).getLast? = some last →
        ({ last with stamp := map.stamp } : AdEvent) = map →
        getReportingEventQueue (generateAdReportingEvent state ev stamp initialized)
          = getReportingEventQueue state) ∧
    (∀ (state : AppState) (ev : ReportingEvent) (stamp : String) (initialized : Bool),
        List.Chain' (fun a b => ({ a with stamp := b.stamp } : AdEvent) ≠ b)
          (getReportingEventQueue state) →
        List.Chain' (fun a b => ({ a with stamp := b.stamp } : AdEvent) ≠ b)
          (getReportingEventQueue (generateAdReportingEvent state ev stamp initialized))) ∧
    (∀ (state : AppState) (t : Int) (s1 s2 s3 : String),
        getAdEnabledValue state = true →
        getReportingEventQueue state = [] →
        (getReportingEventQueue
            (generateAdReportingEvent
              (generateAdReportingEvent state (ReportingEvent.focus t) s1 true)
              (ReportingEvent.focus t) s2 true)).length = 1 ∧
        (getReportingEventQueue
            (generateAdReportingEvent
              (generateAdReportingEvent
                (generateAdReportingEvent state (ReportingEvent.focus t) s1 true)
                (ReportingEvent.focus t) s2 true)
              (ReportingEvent.blur t) s3 true)).length = 2) := by
  refine ⟨?_, ?_, ?_⟩
  · intro state ev stamp initialized map st1 last hb hl heq
    unfold generateAdReportingEvent
    by_cases hnoop : noopB state initialized = true
    · rw [hnoop]
      simp
    · simp only [Bool.not_eq_true] at hnoop
      rw [hnoop]
      simp only [Bool.false_eq_true, if_false, hb]
      have hq : getReportingEventQueue st1 = getReportingEventQueue state :=
        (buildReportMap_frame state ev stamp map st1 hb).1
      rw [hq, hl]
      simp only [heq, if_true]
      exact hq
  · intro state ev stamp initialized hch
    unfold generateAdReportingEvent
    by_cases hnoop : noopB state initialized = true
    · rw [hnoop]
      simpa using hch
    · simp only [Bool.not_eq_true] at hnoop
      rw [hnoop]
      simp only [Bool.false_eq_true, if_false]
      split
      · exact hch
      · next map st1 hb =>
          have hq : getReportingEventQueue st1 = getReportingEventQueue state :=
            (buildReportMap_frame state ev stamp map st1 hb).1
          have he1 : getAdEnabledValue st1 = true := by
            rw [(buildReportMap_frame state ev stamp map st1 hb).2]
            exact ((noopB_false_iff state initialized).mp hnoop).2
          split
          · next last hl =>
              split
              · rw [hq]
                exact hch
              · next heq =>
                  rw [appendQueue_eq st1 map he1]
                  rw [List.chain'_append]
                  refine ⟨by rw [hq]; exact hch, by simp, ?_⟩
                  intro x hx y hy
                  rw [hl] at hx
                  simp at hx hy
                  rw [← hx, ← hy]
                  exact heq
          · next hl =>
              have hnil : getReportingEventQueue st1 = [] :=
                List.getLast?_eq_none_iff.mp hl
              rw [appendQueue_eq st1 map he1, hnil]
              simp
  · intro state t s1 s2 s3 he hq0
    have hnoop : noopB state true = false := by simp [noopB, he]
    have hgen1 : generateAdReportingEvent state (ReportingEvent.focus t) s1 true
        = appendToReportingEventQueue state
            { type := ("focus"), stamp := s1, tabId := some (toString t) } := by
      unfold generateAdReportingEvent
      rw [hnoop]
      simp only [Bool.false_eq_true, if_false, buildReportMap]
      rw [hq0]
      simp
    have he1 : getAdEnabledValue (appendToReportingEventQueue state
        { type := ("focus"), stamp := s1, tabId := some (toString t) }) = true := by
      rw [enabled_appendQueue]
      exact he
    have hq1 : getReportingEventQueue (appendToReportingEventQueue state
        { type := ("focus"), stamp := s1, tabId := some (toString t) })
        = [{ type := ("focus"), stamp := s1, tabId := some (toString t) }] := by
      rw [appendQueue_eq _ _ he, hq0]
      simp
    have hnoop1 : noopB (appendToReportingEventQueue state
        { type := ("focus"), stamp := s1, tabId := some (toString t) }) true = false := by
      simp [noopB, he1]
    have hgen2 : generateAdReportingEvent (appendToReportingEventQueue state
          { type := ("focus"), stamp := s1, tabId := some (toString t) })
          (ReportingEvent.focus t) s2 true
        = appendToReportingEventQueue state
            { type := ("focus"), stamp := s1, tabId := some (toString t) } := by
      unfold generateAdReportingEvent
      rw [hnoop1]
      simp only [Bool.false_eq_true, if_false, buildReportMap]
      rw [hq1]
      simp
    rw [hgen1, hgen2]
    constructor
    · rw [hq1]
      rfl
    · have hgen3 : generateAdReportingEvent (appendToReportingEventQueue state
            { type := ("focus"), stamp := s1, tabId := some (toString t) })
            (ReportingEvent.blur t) s3 true
          = appendToReportingEventQueue (appendToReportingEventQueue state
              { type := ("focus"), stamp := s1, tabId := some (toString t) })
              { type := ("blur"), stamp := s3, tabId := some (toString t) } := by
        unfold generateAdReportingEvent
        rw [hnoop1]
        simp only [Bool.false_eq_true, if_false, buildReportMap]
        rw [hq1]
        simp [AdEvent.mk.injEq]
      rw [hgen3, appendQueue_eq _ _ he1, hq1]
      simp

/-- Witness for C3 (amended): from an enabled empty-queue state, two
identical focus events leave one queued record and a following blur event
makes it two; and in the suppression situation of the counterexample the
queue is unchanged. -/
theorem claim3_witness :
    (getReportingEventQueue
        (generateAdReportingEvent
          (generateAdReportingEvent baseEnabledState (ReportingEvent.focus 5) ("s1") true)
          (ReportingEvent.focus 5) ("s2") true)).length = 1 ∧
    (getReportingEventQueue
        (generateAdReportingEvent
          (generateAdReportingEvent
            (generateAdReportingEvent baseEnabledState (ReportingEvent.focus 5) ("s1") true)
            (ReportingEvent.focus 5) ("s2") true)
          (ReportingEvent.blur 5) ("s3") true)).length = 2 := by
  exact claim3_dedup.2.2 baseEnabledState 5 ("s1") ("s2") ("s3") rfl rfl

theorem hierLookupGo_none_iff (cats : List (String × List AdInfo)) (hierarchy : List String) :
    ∀ (k : Nat), hierLookupGo cats hierarchy k = none ↔
      ∀ n, 0 < n → n ≤ k → lookupCat cats (prefixJoin hierarchy n) = none := by
  intro k
  induction k with
  | zero =>
      constructor
      · intro _ n hn hk
        exact absurd hk (by omega)
      · intro _
        rfl
  | succ m ih =>
      constructor
      · intro hnone n hn hk
        unfold hierLookupGo at hnone
        cases hc : lookupCat cats (prefixJoin hierarchy (m + 1)) with
        | some r => simp [hc] at hnone
        | none =>
            simp only [hc] at hnone
            by_cases hm : n ≤ m
            · exact (ih.mp hnone) n hn hm
            · have hEq : n = m + 1 := by omega
              rw [hEq]
              exact hc
      · intro hall
        unfold hierLookupGo
        simp only [hall (m + 1) (by omega) (le_refl _)]
        exact ih.mpr fun n hn hk => hall n hn (by omega)

theorem hierLookupGo_some (cats : List (String × List AdInfo)) (hierarchy : List String) :
    ∀ (k : Nat) (w : String) (r : List AdInfo),
      hierLookupGo cats hierarchy k = some (w, r) →
      ∃ n, 0 < n ∧ n ≤ k ∧ w = prefixJoin hierarchy n ∧ lookupCat cats w = some r ∧
        ∀ m, n < m → m ≤ k → lookupCat cats (prefixJoin hierarchy m) = none := by
  intro k
  induction k with
  | zero =>
      intro w r h
      exact Option.noConfusion h
  | succ m ih =>
      intro w r h
      unfold hierLookupGo at h
      cases hc : lookupCat cats (prefixJoin hierarchy (m + 1)) with
      | some r2 =>
          simp only [hc] at h
          obtain ⟨hw, hr⟩ := Prod.mk.injEq .. ▸ (Option.some.inj h)
          refine ⟨m + 1, by omega, le_refl _, hw.symm, ?_, ?_⟩
          · rw [← hw, hc, hr]
          · intro j hj1 hj2
            exact absurd hj2 (by omega)
      | none =>
          simp only [hc] at h
          obtain ⟨n, hn, hnk, hw, hlook, htail⟩ := ih w r h
          refine ⟨n, hn, by omega, hw, hlook, ?_⟩
          intro j hj1 hj2
          by_cases hj3 : j ≤ m
          · exact htail j hj1 hj3
          · have : j = m + 1 := by omega
            rw [this]
            exact hc

theorem checkReadyAdServe_stage (env : ServeEnv) (state : AppState) (bundle : AdBundle)
    (category winnerOverTime : String) (result : List AdInfo)
    (hnoop : noopB state env.initialized = false)
    (hfg : env.foregroundP = true)
    (hallow : allowedToShowAdBasedOnHistory state env.now = true)
    (hsurvey : (getUserSurveyQueue state).find? (fun s => s.status = ("available")) = none)
    (hbundle : env.bundle = some bundle)
    (hcat : jsCategory (env.catNames.get? (env.vectorIndexOfMax
        (env.deriveCategoryScores (getPageScoreHistory state)))) = some category)
    (hhier : hierLookup bundle.categories (jsSplitDash category)
        = some (winnerOverTime, result)) :
    checkReadyAdServe env state =
      (if (result.filter fun x =>
            !jsTruthyNum (assocGet (getAdUUIDSeen state) x.uuid)).length ≤ 0 then
        serveFromPool env (result.foldl (fun st x => recordAdUUIDSeen st x.uuid 0) state)
          category winnerOverTime
          (result.filter fun x => jsTruthyNum (assocGet (getAdUUIDSeen state) x.uuid))
          [LogEntry.adRoundRobin category]
      else
        serveFromPool env state category winnerOverTime
          (result.filter fun x => !jsTruthyNum (assocGet (getAdUUIDSeen state) x.uuid)) []) := by
  unfold checkReadyAdServe
  rw [hnoop]
  simp only [Bool.false_eq_true, if_false, hfg, hallow, hsurvey, hbundle, hcat, hhier,
    Bool.not_true, if_true]

theorem checkReadyAdServe_noAds (env : ServeEnv) (state : AppState) (bundle : AdBundle)
    (category : String)
    (hnoop : noopB state env.initialized = false)
    (hfg : env.foregroundP = true)
    (hallow : allowedToShowAdBasedOnHistory state env.now = true)
    (hsurvey : (getUserSurveyQueue state).find? (fun s => s.status = ("available")) = none)
    (hbundle : env.bundle = some bundle)
    (hcat : jsCategory (env.catNames.get? (env.vectorIndexOfMax
        (env.deriveCategoryScores (getPageScoreHistory state)))) = some category)
    (hhier : hierLookup bundle.categories (jsSplitDash category) = none) :
    checkReadyAdServe env state = (state, [LogEntry.adNotServed ("no ads for category")]) := by
  unfold checkReadyAdServe
  rw [hnoop]
  simp only [Bool.false_eq_true, if_false, hfg, hallow, hsurvey, hbundle, hcat, hhier,
    Bool.not_true, if_true]

/-- Claim C4: ad selection splits the winning category name on `-` and probes
the catalog with progressively shorter prefixes from the full path, stopping
at the first present one; a catalog with only `sports` serves a page
classified `sports-rugby-worldcup` out of the `sports` bucket; and when no
prefix at any level is present the cycle is a not-served outcome with the
state unchanged. -/
theorem claim4_hierarchical_fallback :
    (∀ (cats : List (String × List AdInfo)) (hierarchy : List String) (w : String)
        (r : List AdInfo),
        hierLookup cats hierarchy = some (w, r) →
        ∃ n, 0 < n ∧ n ≤ hierarchy.length ∧ w = prefixJoin hierarchy n ∧
          lookupCat cats w = some r ∧
          ∀ m, n < m → m ≤ hierarchy.length → lookupCat cats (prefixJoin hierarchy m) = none) ∧
    (∀ (cats : List (String × List AdInfo)) (hierarchy : List String),
        hierLookup cats hierarchy = none ↔
          ∀ n, 0 < n → n ≤ hierarchy.length →
            lookupCat cats (prefixJoin hierarchy n) = none) ∧
    (checkReadyAdServe sportsEnv baseEnabledState
        = (appendAdShownToAdHistory baseEnabledState 1000000,
           [LogEntry.adShown ("sports-rugby-worldcup") ("sports") ("ad-1")])) ∧
    (∀ (env : ServeEnv) (state : AppState) (bundle : AdBundle) (category : String),
        noopB state env.initialized = false →
        env.foregroundP = true →
        allowedToShowAdBasedOnHistory state env.now = true →
        (getUserSurveyQueue state).find? (fun s => s.status = ("available")) = none →
        env.bundle = some bundle →
        jsCategory (env.catNames.get? (env.vectorIndexOfMax
            (env.deriveCategoryScores (getPageScoreHistory state)))) = some category →
        hierLookup bundle.categories (jsSplitDash category) = none →
        checkReadyAdServe env state
          = (state, [LogEntry.adNotServed ("no ads for category")])) := by
  refine ⟨?_, ?_, ?_, ?_⟩
  · intro cats hierarchy w r h
    exact hierLookupGo_some cats hierarchy hierarchy.length w r h
  · intro cats hierarchy
    exact hierLookupGo_none_iff cats hierarchy hierarchy.length
  · decide
  · intro env state bundle category hnoop hfg hallow hsurvey hbundle hcat hhier
    exact checkReadyAdServe_noAds env state bundle category hnoop hfg hallow hsurvey
      hbundle hcat hhier

/-- Witness for C4: the prefix-free catalog (only a `music` bucket) leaves the
`sports-rugby-worldcup` page not served with the state unchanged, and the
characterization applies to the sports catalog at prefix length 1. -/
theorem claim4_witness :
    (checkReadyAdServe musicEnv baseEnabledState
        = (baseEnabledState, [LogEntry.adNotServed ("no ads for category")])) ∧
    (∃ n, 0 < n ∧ n ≤ (jsSplitDash ("sports-rugby-worldcup")).length ∧
        ("sports") = prefixJoin (jsSplitDash ("sports-rugby-worldcup")) n ∧
        lookupCat sportsBundle.categories ("sports") = some [adSports] ∧
        ∀ m, n < m → m ≤ (jsSplitDash ("sports-rugby-worldcup")).length →
          lookupCat sportsBundle.categories
            (prefixJoin (jsSplitDash ("sports-rugby-worldcup")) m) = none) := by
  constructor
  · exact claim4_hierarchical_fallback.2.2.2 musicEnv baseEnabledState musicBundle
      ("sports-rugby-worldcup") rfl rfl rfl rfl rfl rfl (by decide)
  · exact claim4_hierarchical_fallback.1 sportsBundle.categories
      (jsSplitDash ("sports-rugby-worldcup")) ("sports") [adSports] (by decide)

theorem filter_eq_self_of_notfilter_nil {α : Type} (p : α → Bool) (l : List α)
    (h : l.filter (fun x => !p x) = []) : l.filter p = l := by
  induction l with
  | nil => rfl
  | cons a t ih =>
      by_cases hp : p a = true
      · simp only [List.filter_cons, hp, Bool.not_true, Bool.false_eq_true, if_false,
          if_true] at h ⊢
        rw [ih h]
      · simp only [Bool.not_eq_true] at hp
        simp [List.filter_cons, hp] at h

theorem assocGet_set_self {β : Type} (l : List (String × β)) (k : String) (v : β) :
    assocGet (assocSet l k v) k = some v := by
  induction l with
  | nil => simp [assocSet, assocGet]
  | cons p rest ih =>
      obtain ⟨k1, v1⟩ := p
      by_cases h : k1 = k
      · simp [assocSet, assocGet, h]
      · simp [assocSet, assocGet, h, ih]

theorem assocGet_set_other {β : Type} (l : List (String × β)) (k : String) (v : β)
    (k' : String) (h : k' ≠ k) : assocGet (assocSet l k v) k' = assocGet l k' := by
  induction l with
  | nil => simp [assocSet, assocGet, Ne.symm h]
  | cons p rest ih =>
      obtain ⟨k1, v1⟩ := p
      by_cases h1 : k1 = k
      · simp only [assocSet, h1, if_true, assocGet]
        have h2 : ¬(k = k') := Ne.symm h
        simp [h2]
      · simp only [assocSet, h1, if_false, assocGet]
        by_cases h2 : k1 = k'
        · simp [h2]
        · simp [h2, ih]

theorem recordSeen_seen (state : AppState) (uuid : String) (value : Int)
    (he : getAdEnabledValue state = true) :
    getAdUUIDSeen (recordAdUUIDSeen state uuid value)
      = assocSet (getAdUUIDSeen state) uuid value := by
  simp [recordAdUUIDSeen, he, getAdUUIDSeen, modUM]

theorem foldl_unmark (l : List AdInfo) :
    ∀ (state : AppState), getAdEnabledValue state = true →
      getAdEnabledValue (l.foldl (fun st y => recordAdUUIDSeen st y.uuid 0) state) = true ∧
      ∀ (k : String), ((∃ x ∈ l, x.uuid = k) ∨ assocGet (getAdUUIDSeen state) k = some 0) →
        assocGet (getAdUUIDSeen
          (l.foldl (fun st y => recordAdUUIDSeen st y.uuid 0) state)) k = some 0 := by
  induction l with
  | nil =>
      intro state he
      refine ⟨he, ?_⟩
      intro k hk
      cases hk with
      | inl hx =>
          obtain ⟨x, hxl, -⟩ := hx
          exact absurd hxl (List.not_mem_nil x)
      | inr h => exact h
  | cons a t ih =>
      intro state he
      have he1 : getAdEnabledValue (recordAdUUIDSeen state a.uuid 0) = true := by
        rw [recordAdUUIDSeen_enabled]
        exact he
      obtain ⟨hen, hall⟩ := ih (recordAdUUIDSeen state a.uuid 0) he1
      refine ⟨hen, ?_⟩
      intro k hk
      apply hall k
      cases hk with
      | inl hx =>
          obtain ⟨x, hxl, hxk⟩ := hx
          cases List.mem_cons.mp hxl with
          | inl hxa =>
              right
              rw [recordSeen_seen state a.uuid 0 he, ← hxk, hxa]
              exact assocGet_set_self ..
          | inr hxt => exact Or.inl ⟨x, hxt, hxk⟩
      | inr hprev =>
          right
          rw [recordSeen_seen state a.uuid 0 he]
          by_cases hk2 : k = a.uuid
          · rw [hk2]
            exact assocGet_set_self ..
          · rw [assocGet_set_other _ _ _ _ hk2]
            exact hprev

/-- Claim C5: when the not-seen partition of the matched category's ad list
is empty, the cycle emits a round-robin event, marks every ad of the matched
list unseen, and uses the full matched list as the not-seen pool; when the
matched list is itself empty the reset does not loop and the cycle is an
immediate not-served with the state unchanged. -/
theorem claim5_round_robin :
    (∀ (env : ServeEnv) (state : AppState) (bundle : AdBundle)
        (category winnerOverTime : String) (result : List AdInfo),
        noopB state env.initialized = false →
        env.foregroundP = true →
        allowedToShowAdBasedOnHistory state env.now = true →
        (getUserSurveyQueue state).find? (fun s => s.status = ("available")) = none →
        env.bundle = some bundle →
        jsCategory (env.catNames.get? (env.vectorIndexOfMax
            (env.deriveCategoryScores (getPageScoreHistory state)))) = some category →
        hierLookup bundle.categories (jsSplitDash category)
            = some (winnerOverTime, result) →
        result.filter (fun x => !jsTruthyNum (assocGet (getAdUUIDSeen state) x.uuid)) = [] →
        (checkReadyAdServe env state
            = serveFromPool env
                (result.foldl (fun st x => recordAdUUIDSeen st x.uuid 0) state)
                category winnerOverTime result [LogEntry.adRoundRobin category]) ∧
        (∀ x ∈ result, assocGet (getAdUUIDSeen
            (result.foldl (fun st x => recordAdUUIDSeen st x.uuid 0) state)) x.uuid
          = some 0)) ∧
    (∀ (env : ServeEnv) (state : AppState) (bundle : AdBundle)
        (category winnerOverTime : String),
        noopB state env.initialized = false →
        env.foregroundP = true →
        allowedToShowAdBasedOnHistory state env.now = true →
        (getUserSurveyQueue state).find? (fun s => s.status = ("available")) = none →
        env.bundle = some bundle →
        jsCategory (env.catNames.get? (env.vectorIndexOfMax
            (env.deriveCategoryScores (getPageScoreHistory state)))) = some category →
        hierLookup bundle.categories (jsSplitDash category) = some (winnerOverTime, []) →
        checkReadyAdServe env state
          = (state, [LogEntry.adRoundRobin category,
                     LogEntry.adNotServed ("no ad for winnerOverTime")])) := by
  constructor
  · intro env state bundle category winnerOverTime result hnoop hfg hallow hsurvey hbundle
      hcat hhier hempty
    have he : getAdEnabledValue state = true :=
      ((noopB_false_iff state env.initialized).mp hnoop).2
    constructor
    · rw [checkReadyAdServe_stage env state bundle category winnerOverTime result hnoop hfg
        hallow hsurvey hbundle hcat hhier, hempty]
      simp only [List.length_nil, le_refl, if_true]
      rw [filter_eq_self_of_notfilter_nil
        (fun x => jsTruthyNum (assocGet (getAdUUIDSeen state) x.uuid)) result hempty]
    · intro x hx
      exact (foldl_unmark result state he).2 x.uuid (Or.inl ⟨x, hx, rfl⟩)
  · intro env state bundle category winnerOverTime hnoop hfg hallow hsurvey hbundle hcat hhier
    rw [checkReadyAdServe_stage env state bundle category winnerOverTime [] hnoop hfg
      hallow hsurvey hbundle hcat hhier]
    simp [serveFromPool]

/-- Witness for C5: with the only sports ad already seen, the cycle resets
(round-robin event, the full list as pool, the seen flag back to 0); with an
empty `sports` ad list, the cycle is an immediate not-served leaving the
state unchanged. -/
theorem claim5_witness :
    (checkReadyAdServe sportsEnv seenAllState
        = serveFromPool sportsEnv
            ([adSports].foldl (fun st x => recordAdUUIDSeen st x.uuid 0) seenAllState)
            ("sports-rugby-worldcup") ("sports") [adSports]
            [LogEntry.adRoundRobin ("sports-rugby-worldcup")]) ∧
    (assocGet (getAdUUIDSeen
        ([adSports].foldl (fun st x => recordAdUUIDSeen st x.uuid 0) seenAllState))
      (("ad-1")) = some 0) ∧
    (checkReadyAdServe emptyCatEnv baseEnabledState
        = (baseEnabledState,
           [LogEntry.adRoundRobin ("sports-rugby-worldcup"),
            LogEntry.adNotServed ("no ad for winnerOverTime")])) := by
  have h := claim5_round_robin.1 sportsEnv seenAllState sportsBundle
    ("sports-rugby-worldcup") ("sports") [adSports] rfl rfl (by decide) rfl rfl (by decide)
    (by decide) (by decide)
  refine ⟨h.1, ?_, ?_⟩
  · exact h.2 adSports (by simp)
  · exact claim5_round_robin.2 emptyCatEnv baseEnabledState emptyCatBundle
      ("sports-rugby-worldcup") ("sports") rfl rfl (by decide) rfl rfl (by decide) (by decide)
